import Mathlib

/-!
Verification of the rule-based triage pipeline (sanitizer, entity extractor,
scope detector, intent classifier) of the PartSelect chat-agent backend.

Strings are modelled as `List Char`.  JavaScript regular-expression matching is
modelled operationally: a matcher at a position returns the length of the match
found there (`Option Nat`), `.test` scans every start position, and global
`String.match` scans left to right, restarting after each match, exactly as a
JS regex with the `g` flag does.
-/

namespace Triage

/-! ### Character classes (by code point, as in the JS source) -/

/-- ASCII digit, the JS regex class `\d`. -/
def isDigitC (c : Char) : Bool :=
  48 ≤ c.toNat && c.toNat ≤ 57

/-- Uppercase ASCII letter, the JS regex class `[A-Z]` without the `i` flag. -/
def isUpperAZ (c : Char) : Bool :=
  65 ≤ c.toNat && c.toNat ≤ 90

/-- Lowercase ASCII letter. -/
def isLowerAZ (c : Char) : Bool :=
  97 ≤ c.toNat && c.toNat ≤ 122

/-- ASCII letter of either case, the JS regex class `[A-Z]` with the `i` flag. -/
def isLetterCI (c : Char) : Bool :=
  isUpperAZ c || isLowerAZ c

/-- JS whitespace (`\s`, also the set removed by `String.prototype.trim`). -/
def isJsWs (c : Char) : Bool :=
  (9 ≤ c.toNat && c.toNat ≤ 13) || c.toNat = 32 || c.toNat = 160 ||
  c.toNat = 0x1680 || (0x2000 ≤ c.toNat && c.toNat ≤ 0x200A) ||
  c.toNat = 0x2028 || c.toNat = 0x2029 || c.toNat = 0x202F ||
  c.toNat = 0x205F || c.toNat = 0x3000 || c.toNat = 0xFEFF

/-- Control characters removed by `removeControlCharacters`:
`[\x00-\x08\x0B-\x0C\x0E-\x1F\x7F]`. -/
def isCtl (c : Char) : Bool :=
  (c.toNat ≤ 8) || (11 ≤ c.toNat && c.toNat ≤ 12) ||
  (14 ≤ c.toNat && c.toNat ≤ 31) || c.toNat = 127

/-- ASCII uppercasing, as `String.prototype.toUpperCase` acts on ASCII text. -/
def upperChar (c : Char) : Char :=
  if isLowerAZ c then Char.ofNat (c.toNat - 32) else c

/-- ASCII lowercasing, as `String.prototype.toLowerCase` acts on ASCII text. -/
def lowerChar (c : Char) : Char :=
  if isUpperAZ c then Char.ofNat (c.toNat + 32) else c

/-- The apostrophe character (code point 39), used in some keyword phrases. -/
def apos : Char := Char.ofNat 39

/-! ### List utilities mirroring JS string primitives -/

/-- Boolean prefix test on character lists. -/
def isPreB : List Char → List Char → Bool
  | [], _ => true
  | _ :: _, [] => false
  | a :: as, b :: bs => a == b && isPreB as bs

/-- `hay.includes(needle)` of JS: substring containment. -/
def containsSub (hay needle : List Char) : Bool :=
  match hay with
  | [] => isPreB needle []
  | c :: t => isPreB needle (c :: t) || containsSub t needle

/-- Number of leading characters of `l` satisfying `p`. -/
def countLeading (p : Char → Bool) : List Char → Nat
  | [] => 0
  | c :: t => if p c then countLeading p t + 1 else 0

/-- Consume exactly `n` characters satisfying `p`, returning the rest. -/
def consumeClass (p : Char → Bool) : Nat → List Char → Option (List Char)
  | 0, l => some l
  | _ + 1, [] => none
  | n + 1, c :: t => if p c then consumeClass p n t else none

/-- Try a candidate quantifier width from each element of the list in order,
returning the first success: models regex backtracking priority. -/
def tryEach (f : Nat → Option Nat) : List Nat → Option Nat
  | [] => none
  | n :: ns =>
    match f n with
    | some r => some r
    | none => tryEach f ns

/-- `[n, n-1, ..., 1]`: candidate widths for a greedy `+` quantifier. -/
def countdown : Nat → List Nat
  | 0 => []
  | n + 1 => (n + 1) :: countdown n

/-- Keep-first deduplication, as iterating a JS `Set` does. -/
def dedupGo (seen : List (List Char)) : List (List Char) → List (List Char)
  | [] => []
  | x :: xs => if seen.contains x then dedupGo seen xs else x :: dedupGo (x :: seen) xs

/-- `[...new Set(arr)]` of JS. -/
def dedupL (l : List (List Char)) : List (List Char) := dedupGo [] l

/-! ### Regex matchers of the repository's patterns -/

/-- Match of `/PS\d{6,}/` (case-insensitive) anchored at the head of `l`:
returns the length of the (greedy) match if there is one. -/
def partMatchAtCI : List Char → Option Nat
  | c1 :: c2 :: rest =>
    if (c1.toNat = 80 || c1.toNat = 112) && (c2.toNat = 83 || c2.toNat = 115) then
      let k := countLeading isDigitC rest
      if 6 ≤ k then some (2 + k) else none
    else none
  | _ => none

/-- Match of `/[A-Z]{1,3}\d{3,4}[A-Z]{0,2}\d+[A-Z]?\d*/` anchored at the head
of `l`, with the letter class given by `up` (`isUpperAZ` without the `i` flag,
`isLetterCI` with it).  Greedy quantifiers with backtracking: each quantifier
tries its widths from largest to smallest and the first complete success is
the match, exactly as the JS engine behaves on this pattern. -/
def matchModelAt (up : Char → Bool) (l : List Char) : Option Nat :=
  tryEach (fun l1 =>
    (consumeClass up l1 l).bind (fun r1 =>
      tryEach (fun l2 =>
        (consumeClass isDigitC l2 r1).bind (fun r2 =>
          tryEach (fun l3 =>
            (consumeClass up l3 r2).bind (fun r3 =>
              tryEach (fun j =>
                (consumeClass isDigitC j r3).bind (fun r4 =>
                  tryEach (fun l5 =>
                    (consumeClass up l5 r4).bind (fun r5 =>
                      some (l1 + l2 + l3 + j + l5 + countLeading isDigitC r5)))
                    [1, 0]))
                (countdown (countLeading isDigitC r3))))
            [2, 1, 0]))
        [4, 3]))
    [3, 2, 1]

/-- `regex.test(s)`: does a match start at some position of `s`? -/
def regexTest (mAt : List Char → Option Nat) : List Char → Bool
  | [] => (mAt []).isSome
  | c :: t => (mAt (c :: t)).isSome || regexTest mAt t

/-- Fuel-driven worker for `scanAll`; the fuel is an upper bound on the
remaining length, so it never runs out when started with `l.length`. -/
def scanAllFuel (mAt : List Char → Option Nat) : Nat → List Char → List (List Char)
  | 0, _ => []
  | _ + 1, [] => []
  | fuel + 1, c :: t =>
    match mAt (c :: t) with
    | some n =>
      if n = 0 then [] :: scanAllFuel mAt fuel t
      else (c :: t).take n :: scanAllFuel mAt fuel ((c :: t).drop n)
    | none => scanAllFuel mAt fuel t

/-- `s.match(regex)` with the `g` flag: scan left to right collecting
non-overlapping matches, resuming after the end of each match. -/
def scanAll (mAt : List Char → Option Nat) (l : List Char) : List (List Char) :=
  scanAllFuel mAt l.length l

/-! ### Sanitizer (`src/backend/src/utils/sanitizers.js`) -/

/-- `encodeHtmlEntities`: escape the map of one character each. -/
def escapeChar (c : Char) : List Char :=
  if c = '&' then ('&' :: "amp;".data)
  else if c = '<' then ('&' :: "lt;".data)
  else if c = '>' then ('&' :: "gt;".data)
  else if c = '"' then ('&' :: "quot;".data)
  else if c = apos then ('&' :: "#39;".data)
  else if c = '/' then ('&' :: "#x2F;".data)
  else [c]

/-- HTML entity encoding for XSS prevention (`str.replace(/[&<>"'/]/g, ...)`). -/
def encodeHtmlEntities (l : List Char) : List Char :=
  (l.map escapeChar).flatten

/-- Drop leading JS whitespace. -/
def dropLeadingWs (l : List Char) : List Char := l.dropWhile isJsWs

/-- Drop trailing JS whitespace. -/
def dropTrailingWs (l : List Char) : List Char :=
  (l.reverse.dropWhile isJsWs).reverse

/-- `str.trim()`. -/
def trimWhitespace (l : List Char) : List Char :=
  dropTrailingWs (dropLeadingWs l)

/-- The `str.replace(/\s+/g, ' ')` part of `normalizeWhitespace`: the flag
records whether we are inside a whitespace run that already emitted `' '`. -/
def collapseGo (inRun : Bool) : List Char → List Char
  | [] => []
  | c :: t =>
    if isJsWs c then
      if inRun then collapseGo true t else ' ' :: collapseGo true t
    else c :: collapseGo false t

/-- `normalizeWhitespace`: `str.replace(/\s+/g, ' ').trim()`. -/
def normalizeWhitespace (l : List Char) : List Char :=
  trimWhitespace (collapseGo false l)

/-- `removeControlCharacters`. -/
def removeControlCharacters (l : List Char) : List Char :=
  l.filter (fun c => !isCtl c)

/-- `toLowercase`. -/
def toLowercase (l : List Char) : List Char := l.map lowerChar

/-- The record returned by `sanitizeMessage`. -/
structure SanitizedMessage where
  original : List Char
  cleaned : List Char
  sanitized : List Char
  lowercase : List Char
deriving DecidableEq, Repr

/-- `sanitizeMessage` on a string argument (the non-string case is modelled by
`sanitizeMessageJS` below). -/
def sanitizeMessage (message : List Char) : SanitizedMessage :=
  let cleaned1 := removeControlCharacters message
  let cleaned2 := trimWhitespace cleaned1
  let cleaned3 := normalizeWhitespace cleaned2
  { original := message
    cleaned := cleaned3
    sanitized := encodeHtmlEntities cleaned3
    lowercase := toLowercase cleaned3 }

/-- A JS value as far as `typeof message !== 'string'` can distinguish it. -/
inductive JSValue where
  | str (s : List Char)
  | num (n : Int)
  | boolean (b : Bool)
  | null
  | undef
deriving DecidableEq

/-- Does `typeof v === 'string'` hold? -/
def isStringV : JSValue → Bool
  | .str _ => true
  | _ => false

/-- `sanitizeMessage` as called on an arbitrary JS value: throws
`Message must be a string` exactly on non-strings. -/
def sanitizeMessageJS : JSValue → Except String SanitizedMessage
  | .str s => .ok (sanitizeMessage s)
  | _ => .error "Message must be a string"

/-! ### Entity extraction (`extractEntities`) -/

/-- The entity record `{ partNumbers: [], modelNumbers: [] }`. -/
structure EntitySet where
  partNumbers : List (List Char)
  modelNumbers : List (List Char)
deriving DecidableEq, Repr

/-- `extractEntities`: part numbers by `/PS\d{6,}/gi` uppercased, model
numbers by `/([A-Z]{1,3}\d{3,4}[A-Z]{0,2}\d+[A-Z]?\d*)/g` (case-sensitive)
with matches starting with `PS` filtered out; both deduplicated. -/
def extractEntities (message : List Char) : EntitySet :=
  let partMatches := scanAll partMatchAtCI message
  let partNumbers := partMatches.map (fun p => p.map upperChar)
  let modelMatches := scanAll (matchModelAt isUpperAZ) message
  let modelNumbers := modelMatches.filter (fun m => !isPreB ('P' :: 'S' :: []) m)
  { partNumbers := dedupL partNumbers
    modelNumbers := dedupL modelNumbers }

/-! ### Keyword tables (`src/backend/src/config/constants.js`) -/

/-- `CONSTANTS.IN_SCOPE_KEYWORDS` (duplicates of the source preserved). -/
def IN_SCOPE_KEYWORDS : List (List Char) :=
  (["part", "parts", "component", "components", "replacement", "repair", "fix",
    "broken", "install", "installation", "setup", "assemble", "compatible",
    "compatibility", "work with", "fit", "problem", "issue", "not working",
    "damaged", "replace",
    "refrigerator", "refrigerators", "fridge", "fridges", "dishwasher",
    "dishwashers",
    "water valve", "filter", "compressor", "thermostat", "fan", "motor",
    "seal", "gasket", "hinge", "handle", "shelf", "drawer", "ice maker",
    "dispenser", "heating element", "pump", "spray arm", "door", "latch",
    "leaking", "leak", "freeze", "frozen", "clogged", "clog", "noise",
    "noisy"].map String.data) ++
  [("won".data ++ [apos] ++ "t".data)] ++
  (["not working", "stopped", "error", "malfunction",
    "buy", "purchase", "need", "have", "looking for", "find", "search",
    "what about", "how", "where", "can i",
    "order", "price", "cost", "cart", "checkout", "buy"].map String.data)

/-- `CONSTANTS.OUT_OF_SCOPE_KEYWORDS`. -/
def OUT_OF_SCOPE_KEYWORDS : List (List Char) :=
  ["weather", "stock market", "recipe", "cooking", "politics", "sports",
   "news", "movie", "book", "music", "travel", "hotel", "flight",
   "restaurant", "joke", "laugh", "funny"].map String.data

/-- `CONSTANTS.INTENT_KEYWORDS.product_search`. -/
def productSearchKeywords : List (List Char) :=
  ["need", "looking for", "find me", "do you have", "i want", "show me",
   "where can i get", "what is", "tell me about"].map String.data

/-- `CONSTANTS.INTENT_KEYWORDS.compatibility_check`. -/
def compatibilityKeywords : List (List Char) :=
  ["compatible", "compatible with", "fit", "work with", "support", "fit my",
   "for my", "match"].map String.data

/-- `CONSTANTS.INTENT_KEYWORDS.installation_guide`. -/
def installationKeywords : List (List Char) :=
  ["install", "how to", "setup", "assemble", "attach", "how do i",
   "help me install", "steps"].map String.data

/-- `CONSTANTS.INTENT_KEYWORDS.troubleshooting` (contains the apostrophe
phrases of the source). -/
def troubleshootingKeywords : List (List Char) :=
  (["broken", "not working", "fix", "repair", "problem", "issue"].map
    String.data) ++
  [("what".data ++ [apos] ++ "s wrong".data)] ++
  (["stopped", "leaking"].map String.data) ++
  [("won".data ++ [apos] ++ "t".data)]

/-- `CONSTANTS.INTENT_KEYWORDS.order_support`. -/
def orderSupportKeywords : List (List Char) :=
  (["order", "price", "cost", "buy", "cart", "checkout"].map String.data) ++
  [("where".data ++ [apos] ++ "s my".data)] ++
  ["tracking".data]

/-- Lookup of `CONSTANTS.INTENT_KEYWORDS[intent]` (an absent key is
`undefined`, which the default parameter of `findMatchingKeywords` turns
into the empty list). -/
def intentKeywordsFor (intent : String) : List (List Char) :=
  if intent = "product_search" then productSearchKeywords
  else if intent = "compatibility_check" then compatibilityKeywords
  else if intent = "installation_guide" then installationKeywords
  else if intent = "troubleshooting" then troubleshootingKeywords
  else if intent = "order_support" then orderSupportKeywords
  else []

/-! ### Tokenization and shared helpers -/

mutual

/-- Worker for `splitWs`, accumulating the current (reversed) token. -/
def splitWsGo (cur : List Char) : List Char → List (List Char)
  | [] => [cur.reverse]
  | c :: t =>
    if isJsWs c then cur.reverse :: splitWsSkip t else splitWsGo (c :: cur) t

/-- Skip a whitespace run; a run that reaches the end of the string yields a
trailing empty token, as `"a ".split(/\s+/)` does in JS. -/
def splitWsSkip : List Char → List (List Char)
  | [] => [[]]
  | c :: t => if isJsWs c then splitWsSkip t else splitWsGo [c] t

end

/-- `message.split(/\s+/)` of JS. -/
def splitWs (l : List Char) : List (List Char) := splitWsGo [] l

/-- `tokens.join(' ')`. -/
def joinSp : List (List Char) → List Char
  | [] => []
  | [t] => t
  | t :: ts => t ++ ' ' :: joinSp ts

/-- `/w1|w2|.../i.test(message)` where every alternative `wi` is a literal
lowercase word: case-insensitive substring search. -/
def testAnyCI (message : List Char) (words : List (List Char)) : Bool :=
  words.any (fun w => containsSub (message.map lowerChar) w)

/-- `Math.min` on the exact rational values used for confidences. -/
def minQ (a b : ℚ) : ℚ := if a ≤ b then a else b

/-! ### Scope detection (`src/backend/src/services/scopeDetectionService.js`) -/

/-- `calculateInScopeScore`: +10 for an exact keyword hit, +3 if any keyword
contains the token or the token contains a keyword; clamped to 100. -/
def calculateInScopeScore (tokens : List (List Char)) : Nat :=
  let score := tokens.foldl (fun score token =>
    let score := if IN_SCOPE_KEYWORDS.contains token then score + 10 else score
    if IN_SCOPE_KEYWORDS.any (fun keyword =>
        containsSub keyword token || containsSub token keyword) then
      score + 3
    else score) 0
  min score 100

/-- `calculateOutOfScopeScore`: identical mechanism with weights 15/5. -/
def calculateOutOfScopeScore (tokens : List (List Char)) : Nat :=
  let score := tokens.foldl (fun score token =>
    let score := if OUT_OF_SCOPE_KEYWORDS.contains token then score + 15 else score
    if OUT_OF_SCOPE_KEYWORDS.any (fun keyword =>
        containsSub keyword token || containsSub token keyword) then
      score + 5
    else score) 0
  min score 100

/-- `detectPatterns`: +40 part-number pattern, +30 model-number pattern,
+20 appliance word; clamped to 100. -/
def detectPatterns (message : List Char) : Nat :=
  let score := if regexTest partMatchAtCI message then 40 else 0
  let score := if regexTest (matchModelAt isLetterCI) message then score + 30 else score
  let score :=
    if testAnyCI message (["refrigerator", "fridge", "dishwasher"].map String.data) then
      score + 20
    else score
  min score 100

/-- `categorizeInScopeMessage`: first matching keyword family wins. -/
def categorizeInScopeMessage (tokens : List (List Char)) : String :=
  let message := joinSp tokens
  if testAnyCI message (["install", "setup", "assemble", "attach", "how to"].map String.data) then
    "installation_inquiry"
  else if testAnyCI message (["compatible", "fit", "work with", "support", "match"].map String.data) then
    "compatibility_check"
  else if testAnyCI message
      (["broken", "not working", "fix", "repair", "problem", "issue", "leak",
        "freeze", "noise"].map String.data) then
    "troubleshooting_inquiry"
  else if testAnyCI message
      (["order", "price", "cost", "buy", "cart", "checkout", "shipping"].map String.data) then
    "order_support"
  else "parts_inquiry"

/-- The `score` sub-record of a `ScopeResult`. -/
structure ScoreTriple where
  inScope : Nat
  outOfScope : Nat
  patterns : Nat
deriving DecidableEq, Repr

/-- The record returned by `detectScope`. -/
structure ScopeResult where
  inScope : Bool
  confidence : ℚ
  reason : String
  category : String
  score : ScoreTriple
deriving DecidableEq, Repr

/-- `detectScope` (the `catch` branch of the source is dead in this total
embedding: no step of the pipeline can throw on a string input). -/
def detectScope (message : List Char) : ScopeResult :=
  let tokens := splitWs message
  let inScopeScore := calculateInScopeScore tokens
  let outOfScopeScore := calculateOutOfScopeScore tokens
  let patternScore := detectPatterns message
  let hasPartNumber := regexTest partMatchAtCI message
  let hasModelNumber := regexTest (matchModelAt isLetterCI) message
  if hasPartNumber || hasModelNumber then
    { inScope := true
      confidence := 1
      reason := "Explicit part or model number pattern detected"
      category := "parts_inquiry"
      score := { inScope := 100, outOfScope := 0, patterns := 100 } }
  else if outOfScopeScore > inScopeScore + 20 then
    { inScope := false
      confidence := minQ (95/100) ((outOfScopeScore : ℚ) / 100)
      reason := "Message contains out-of-scope keywords"
      category := "out_of_scope"
      score := { inScope := inScopeScore, outOfScope := outOfScopeScore
                 patterns := patternScore } }
  else if inScopeScore > outOfScopeScore + 10 then
    { inScope := true
      confidence := minQ (95/100) ((inScopeScore : ℚ) / 100)
      reason := "Message contains relevant keywords"
      category := categorizeInScopeMessage tokens
      score := { inScope := inScopeScore, outOfScope := outOfScopeScore
                 patterns := patternScore } }
  else
    { inScope := true
      confidence := 1/2
      reason := "Message appears to be parts-related"
      category := "general_inquiry"
      score := { inScope := inScopeScore, outOfScope := outOfScopeScore
                 patterns := patternScore } }


/-! ### Intent classification (`intentClassificationService`) -/

/-- `keyword.replace(/\s+/g, '')`: a keyword with every whitespace character
removed, used for the exact-match comparison. -/
def stripWs (l : List Char) : List Char := l.filter (fun c => !isJsWs c)

/-- One token scored against one keyword inside `scoreIntent`: +15 and a
recorded match on an exact hit, else +5 and a recorded match on a partial
hit (`keyword.includes(token) && token.length > 2`). -/
def scoreStep (token : List Char) (acc : Nat × List (List Char))
    (keyword : List Char) : Nat × List (List Char) :=
  if token == keyword || token == stripWs keyword then
    (acc.1 + 15, acc.2 ++ [keyword])
  else if containsSub keyword token && decide (token.length > 2) then
    (acc.1 + 5, acc.2 ++ [keyword])
  else acc

/-- `scoreIntent`: per-token points, then a bonus of `matches.length * 5`
when more than one match was recorded, clamped to 100. -/
def scoreIntent (tokens : List (List Char)) (intentKeywords : List (List Char)) : Nat :=
  let r := tokens.foldl
    (fun acc token => intentKeywords.foldl (scoreStep token) acc)
    (0, ([] : List (List Char)))
  let score := if r.2.length > 1 then r.1 + r.2.length * 5 else r.1
  min score 100

/-- The five intent scores in the insertion order of the `intentScores`
object literal of `classifyIntent`. -/
def intentEntries (tokens : List (List Char)) : List (String × Nat) :=
  [("product_search", scoreIntent tokens productSearchKeywords),
   ("compatibility_check", scoreIntent tokens compatibilityKeywords),
   ("installation_guide", scoreIntent tokens installationKeywords),
   ("troubleshooting", scoreIntent tokens troubleshootingKeywords),
   ("order_support", scoreIntent tokens orderSupportKeywords)]

/-- The reducer `(prev, current) => prev[1] > current[1] ? prev : current`. -/
def pickTop (prev current : String × Nat) : String × Nat :=
  if prev.2 > current.2 then prev else current

/-- `Object.entries(intentScores).reduce(pickTop)`: reduce without an initial
value starts from the first entry. -/
def topEntry : List (String × Nat) → String × Nat
  | [] => ("", 0)
  | h :: t => t.foldl pickTop h

/-- `findMatchingKeywords`: keywords hit by some token (exact or contained),
deduplicated in first-seen order. -/
def findMatchingKeywords (tokens intentKeywords : List (List Char)) : List (List Char) :=
  tokens.foldl (fun ms token =>
    intentKeywords.foldl (fun ms keyword =>
      if (token == keyword || containsSub keyword token) &&
          !(ms.contains keyword) then
        ms ++ [keyword]
      else ms) ms) []

/-- `detectApplianceType`. -/
def detectApplianceType (message : List Char) : Option String :=
  if testAnyCI message (["refrigerator", "fridge", "ice maker", "freezer"].map String.data) then
    some "refrigerator"
  else if testAnyCI message (["dishwasher", "wash", "spray arm", "filter", "rinse"].map String.data) then
    some "dishwasher"
  else none

/-- `entities.partNumbers?.[0] || null`: a missing or falsy (empty) first
element becomes `null`. -/
def headOrNull (l : List (List Char)) : Option (List Char) :=
  match l.head? with
  | some x => if x == [] then none else some x
  | none => none

/-- The `context` sub-record of an `IntentResult`. -/
structure IntentContext where
  partNumber : Option (List Char)
  modelNumber : Option (List Char)
  applianceType : Option String
deriving DecidableEq, Repr

/-- The record returned by `classifyIntent`. -/
structure IntentResult where
  intent : String
  confidence : ℚ
  keywords : List (List Char)
  context : IntentContext
  scores : List (String × Nat)
deriving DecidableEq, Repr

/-- `classifyIntent` (as with `detectScope`, the `catch` branch of the source
is dead in this total embedding). -/
def classifyIntent (message : List Char) : IntentResult :=
  let tokens := splitWs message
  let entities := extractEntities message
  let entries := intentEntries tokens
  let top := topEntry entries
  let intent := top.1
  let score := top.2
  let confidence := minQ ((score : ℚ) / 100) (99/100)
  let matchingKeywords := findMatchingKeywords tokens (intentKeywordsFor intent)
  { intent := intent
    confidence := confidence
    keywords := matchingKeywords
    context :=
      { partNumber := headOrNull entities.partNumbers
        modelNumber := headOrNull entities.modelNumbers
        applianceType := detectApplianceType message }
    scores := entries }


/-! ### Specification-side definitions used to state the claims -/

/-- The winner the reducer of `classifyIntent` actually selects, stated
arithmetically: the last intent (in the iteration order product_search,
compatibility_check, installation_guide, troubleshooting, order_support)
whose score is greater than or equal to every other score. -/
def lastArgmaxIntent (s1 s2 s3 s4 s5 : Nat) : String :=
  if s1 ≤ s5 ∧ s2 ≤ s5 ∧ s3 ≤ s5 ∧ s4 ≤ s5 then "order_support"
  else if s1 ≤ s4 ∧ s2 ≤ s4 ∧ s3 ≤ s4 then "troubleshooting"
  else if s1 ≤ s3 ∧ s2 ≤ s3 then "installation_guide"
  else if s1 ≤ s2 then "compatibility_check"
  else "product_search"

/-- Does a token hit a keyword in the sense of `scoreIntent` (exactly, or as
a substring of the keyword with token length above 2)? -/
def kwHit (token keyword : List Char) : Bool :=
  (token == keyword || token == stripWs keyword) ||
  (containsSub keyword token && decide (token.length > 2))

/-- The points a single token earns against a single keyword in
`scoreIntent`: 15 exact, 5 partial, 0 otherwise. -/
def kwPoints (token keyword : List Char) : Nat :=
  if token == keyword || token == stripWs keyword then 15
  else if containsSub keyword token && decide (token.length > 2) then 5
  else 0

/-- The per-token points of `scoreIntent`, summed over all tokens and
keywords. -/
def baseScore (tokens intentKeywords : List (List Char)) : Nat :=
  (tokens.map (fun token => (intentKeywords.map (kwPoints token)).sum)).sum

/-- The number of match events `scoreIntent` records, counted with
multiplicity: one per (token, keyword) pair that hits. -/
def matchEventCount (tokens intentKeywords : List (List Char)) : Nat :=
  (tokens.map (fun token => intentKeywords.countP (kwHit token))).sum

/-- Modelled from the claim's words, for comparison with `scoreIntent`: the
distinct trigger phrases matched by some token. -/
def distinctMatched (tokens intentKeywords : List (List Char)) : List (List Char) :=
  dedupL ((tokens.map (fun token => intentKeywords.filter (kwHit token))).flatten)

/-- Modelled from the claim's words, for comparison with `scoreIntent`: the
per-token points plus a bonus of five times the number of DISTINCT trigger
phrases matched, applied when more than one distinct phrase matched. -/
def scoreIntentSpecDistinct (tokens intentKeywords : List (List Char)) : Nat :=
  let d := (distinctMatched tokens intentKeywords).length
  min (baseScore tokens intentKeywords + (if d > 1 then 5 * d else 0)) 100

/-- Is the head (if any) a non-whitespace character? -/
def headNonWs : List Char → Bool
  | [] => true
  | c :: _ => !isJsWs c

/-- No two adjacent whitespace characters. -/
def noAdjWs : List Char → Bool
  | [] => true
  | [_] => true
  | a :: b :: t => !(isJsWs a && isJsWs b) && noAdjWs (b :: t)

/-! ## Claim theorems -/

/-- The reducer of `classifyIntent` picks the last entry attaining the
maximal score, stated over the five scores. -/
theorem topEntry_eq_lastArgmax (s1 s2 s3 s4 s5 : Nat) :
    (topEntry [("product_search", s1), ("compatibility_check", s2),
      ("installation_guide", s3), ("troubleshooting", s4),
      ("order_support", s5)]).1 = lastArgmaxIntent s1 s2 s3 s4 s5 := by
  simp only [topEntry, List.foldl]
  simp only [pickTop, lastArgmaxIntent]
  split_ifs <;> simp_all <;> omega

/-- Claim C1: the spec asserts
`extractEntities "Is PS11752778 compatible with WDT780SAEM1?"` yields
`partNumbers = {"PS11752778"}` and `modelNumbers = {"WDT780SAEM1"}`.  The
code returns the part number but an EMPTY model-number set: the model regex
`[A-Z]{1,3}\d{3,4}[A-Z]{0,2}\d+[A-Z]?\d*` admits at most two letters between
the two digit groups, and `WDT780SAEM1` has four (`SAEM`), so the regex — in
contradiction with the doc comment of `extractModelNumber`, whose stated
example is exactly `WDT780SAEM1` — never matches it.  This theorem evaluates
the code at the failing input. -/
theorem C1_extract_entities_failing :
    extractEntities ("Is PS11752778 compatible with WDT780SAEM1?".data) =
      { partNumbers := ["PS11752778".data], modelNumbers := [] } ∧
    extractEntities ("Is PS11752778 compatible with WDT780SAEM1?".data) ≠
      { partNumbers := ["PS11752778".data],
        modelNumbers := ["WDT780SAEM1".data] } := by
  constructor
  · decide
  · decide

/-- Claim C2, corrected: for every message, the intent `classifyIntent`
selects is the one with the strictly highest score, but ties at the maximal
score go to the LAST-encountered intent in the iteration order of the score
mapping (product_search, compatibility_check, installation_guide,
troubleshooting, order_support), not the first-encountered one: the reducer
`prev[1] > current[1] ? prev : current` replaces the accumulator on equal
scores. -/
theorem C2_winner_last_argmax (m : List Char) :
    (classifyIntent m).intent =
      lastArgmaxIntent (scoreIntent (splitWs m) productSearchKeywords)
        (scoreIntent (splitWs m) compatibilityKeywords)
        (scoreIntent (splitWs m) installationKeywords)
        (scoreIntent (splitWs m) troubleshootingKeywords)
        (scoreIntent (splitWs m) orderSupportKeywords) := by
  have h : (classifyIntent m).intent = (topEntry (intentEntries (splitWs m))).1 := rfl
  rw [h]
  simp only [intentEntries]
  exact topEntry_eq_lastArgmax _ _ _ _ _

/-- Claim C2, counterexample to the claim as stated: on the message
`"hello"` all five intents tie at score 0, so the first-encountered rule of
the claim would select `product_search`, but the code selects
`order_support`, the last-encountered of the tied intents. -/
theorem C2_counterexample :
    intentEntries (splitWs ("hello".data)) =
      [("product_search", 0), ("compatibility_check", 0),
       ("installation_guide", 0), ("troubleshooting", 0),
       ("order_support", 0)] ∧
    (classifyIntent ("hello".data)).intent = "order_support" ∧
    (classifyIntent ("hello".data)).intent ≠ "product_search" := by
  refine ⟨by decide, by decide, by decide⟩

/-- The inner keyword fold of `scoreIntent` adds the per-keyword points of
one token and appends the keywords it hit. -/
theorem foldl_scoreStep (token : List Char) (kws : List (List Char))
    (s : Nat) (ms : List (List Char)) :
    kws.foldl (scoreStep token) (s, ms)
      = (s + (kws.map (kwPoints token)).sum,
         ms ++ kws.filter (kwHit token)) := by
  induction kws generalizing s ms with
  | nil => simp
  | cons k ks ih =>
    simp only [List.foldl, List.map, List.sum_cons, List.filter]
    by_cases h1 : (token == k || token == stripWs k) = true
    · simp only [scoreStep, h1, if_true, kwPoints, kwHit]
      rw [ih]
      refine Prod.ext ?_ ?_
      · simp; omega
      · simp [h1]
    · by_cases h2 : (containsSub k token && decide (token.length > 2)) = true
      · simp only [scoreStep, h1, h2, if_false, if_true, kwPoints, kwHit,
          Bool.false_or]
        rw [ih]
        refine Prod.ext ?_ ?_
        · simp [h1, h2]; omega
        · simp [h1, h2]
      · simp only [scoreStep, h1, h2, if_false, kwPoints, kwHit, Bool.false_or]
        rw [ih]
        refine Prod.ext ?_ ?_
        · simp [h1, h2]
        · simp [h1, h2]

/-- The outer token fold of `scoreIntent` accumulates the base score and the
full (with multiplicity) list of recorded matches. -/
theorem foldl_rows (tokens kws : List (List Char)) (s : Nat) (ms : List (List Char)) :
    tokens.foldl (fun acc t => kws.foldl (scoreStep t) acc) (s, ms)
      = (s + baseScore tokens kws,
         ms ++ (tokens.map (fun t => kws.filter (kwHit t))).flatten) := by
  induction tokens generalizing s ms with
  | nil => simp [baseScore]
  | cons t ts ih =>
    simp only [List.foldl]
    rw [foldl_scoreStep, ih]
    refine Prod.ext ?_ ?_
    · simp [baseScore]; omega
    · simp [List.append_assoc]

/-- Claim C3, corrected: for every token sequence and trigger list, the
intent score is the sum of per-token points (+15 exact with internal spaces
removed, +5 on a substring hit with token length above 2), plus a bonus of
five times the number of MATCH EVENTS — (token, keyword) pairs counted WITH
multiplicity, not distinct trigger phrases — added exactly when more than
one match event occurred, the total clamped to 100. -/
theorem C3_score_closed_form (tokens kws : List (List Char)) :
    scoreIntent tokens kws =
      min (baseScore tokens kws +
        (if 1 < matchEventCount tokens kws then
          5 * matchEventCount tokens kws
        else 0)) 100 := by
  unfold scoreIntent
  rw [foldl_rows]
  have hlen : (([] : List (List Char)) ++
      (tokens.map (fun t => kws.filter (kwHit t))).flatten).length
      = matchEventCount tokens kws := by
    simp only [List.nil_append, List.length_flatten, List.map_map,
      matchEventCount, List.countP_eq_length_filter]
    congr 1
  simp only [List.nil_append] at hlen ⊢
  rw [hlen]
  have hsc : (if matchEventCount tokens kws > 1 then
      0 + baseScore tokens kws + matchEventCount tokens kws * 5
      else 0 + baseScore tokens kws)
      = baseScore tokens kws +
        (if 1 < matchEventCount tokens kws then
          5 * matchEventCount tokens kws
        else 0) := by
    split_ifs <;> omega
  rw [hsc]

/-- Claim C3, counterexample to the claim as stated: on the token sequence
`["install", "install"]` against the installation_guide trigger list, each
token records two match events (exact `install`, partial `help me install`)
but only two DISTINCT phrases match; the code adds a bonus of 5×4=20 and
returns 60, while the claim's distinct-count formula yields 5×2=10 of bonus
and a total of 50. -/
theorem C3_counterexample :
    scoreIntent ["install".data, "install".data] installationKeywords = 60 ∧
    scoreIntentSpecDistinct ["install".data, "install".data]
      installationKeywords = 50 ∧
    scoreIntent ["install".data, "install".data] installationKeywords ≠
      scoreIntentSpecDistinct ["install".data, "install".data]
        installationKeywords := by
  refine ⟨by decide, by decide, by decide⟩

/-- A list starting with the literal `PS123456` is matched by the
part-number pattern `/PS\d{6,}/i` at its head. -/
theorem partMatchAtCI_of_pre (l : List Char)
    (h : isPreB ("PS123456".data) l = true) :
    (partMatchAtCI l).isSome = true := by
  rcases l with _ | ⟨c1, _ | ⟨c2, _ | ⟨c3, _ | ⟨c4, _ | ⟨c5, _ | ⟨c6, _ | ⟨c7, _ | ⟨c8, rest⟩⟩⟩⟩⟩⟩⟩⟩ <;>
    simp [isPreB] at h
  obtain ⟨h1, h2, h3, h4, h5, h6, h7, h8⟩ := h
  subst h1 h2 h3 h4 h5 h6 h7 h8
  have hcnt : countLeading isDigitC ('1' :: '2' :: '3' :: '4' :: '5' :: '6' :: rest)
      = 6 + countLeading isDigitC rest := by
    simp [countLeading, isDigitC]
    omega
  simp [partMatchAtCI, hcnt]

/-- If a string contains a substring at which the matcher succeeds, then
`regex.test` succeeds on the string. -/
theorem regexTest_of_contains (mAt : List Char → Option Nat) (pat : List Char)
    (m : List Char) (hc : containsSub m pat = true)
    (hall : ∀ l, isPreB pat l = true → (mAt l).isSome = true) :
    regexTest mAt m = true := by
  induction m with
  | nil =>
    simp only [containsSub] at hc
    simpa [regexTest] using hall [] hc
  | cons c t ih =>
    simp only [containsSub, Bool.or_eq_true] at hc
    rcases hc with hc | hc
    · simp [regexTest, hall _ hc]
    · simp [regexTest, ih hc]

/-- Claim C4: for every string containing `"PS123456"` as a substring,
`detectScope` takes the pattern-override branch and returns in-scope with
confidence 1.0 and category `parts_inquiry`, regardless of any out-of-scope
keywords also present. -/
theorem C4_pattern_override (m : List Char)
    (h : containsSub m ("PS123456".data) = true) :
    detectScope m =
      { inScope := true, confidence := 1
        reason := "Explicit part or model number pattern detected"
        category := "parts_inquiry"
        score := { inScope := 100, outOfScope := 0, patterns := 100 } } := by
  have hp : regexTest partMatchAtCI m = true :=
    regexTest_of_contains _ _ m h (fun l hl => partMatchAtCI_of_pre l hl)
  unfold detectScope
  simp [hp]

/-- Claim C4, witness: the override fires on `"PS123456 weather joke"`,
which also contains two out-of-scope keywords. -/
theorem C4_witness :
    containsSub ("PS123456 weather joke".data) ("PS123456".data) = true ∧
    detectScope ("PS123456 weather joke".data) =
      { inScope := true, confidence := 1
        reason := "Explicit part or model number pattern detected"
        category := "parts_inquiry"
        score := { inScope := 100, outOfScope := 0, patterns := 100 } } :=
  ⟨by decide, C4_pattern_override _ (by decide)⟩

/-- Claim C5: for every message matching neither pattern, the scope decision
uses strict inequalities at the in-scope threshold: scores 31 against 20
(difference 11) take the keyword branch, while 30 against 20 (difference
exactly 10) fall into the ambiguous default branch with confidence 0.5 and
category `general_inquiry`. -/
theorem C5_boundary (m : List Char) :
    (regexTest partMatchAtCI m = false →
     regexTest (matchModelAt isLetterCI) m = false →
     calculateInScopeScore (splitWs m) = 31 →
     calculateOutOfScopeScore (splitWs m) = 20 →
     detectScope m =
       { inScope := true, confidence := 31/100
         reason := "Message contains relevant keywords"
         category := categorizeInScopeMessage (splitWs m)
         score := { inScope := 31, outOfScope := 20
                    patterns := detectPatterns m } }) ∧
    (regexTest partMatchAtCI m = false →
     regexTest (matchModelAt isLetterCI) m = false →
     calculateInScopeScore (splitWs m) = 30 →
     calculateOutOfScopeScore (splitWs m) = 20 →
     detectScope m =
       { inScope := true, confidence := 1/2
         reason := "Message appears to be parts-related"
         category := "general_inquiry"
         score := { inScope := 30, outOfScope := 20
                    patterns := detectPatterns m } }) := by
  constructor
  · intro hp hm hin hout
    unfold detectScope
    simp [hp, hm, hin, hout]
    norm_num [minQ]
  · intro hp hm hin hout
    unfold detectScope
    simp [hp, hm, hin, hout]

/-- Claim C5, witness: `"part par par par par par par joke"` scores exactly
31 against 20 and is classified in-scope through the keyword branch, while
`"par par par par par par par par par par joke"` scores exactly 30 against
20 and falls into the ambiguous default branch. -/
theorem C5_witness :
    detectScope ("part par par par par par par joke".data) =
      { inScope := true, confidence := 31/100
        reason := "Message contains relevant keywords"
        category := categorizeInScopeMessage
          (splitWs ("part par par par par par par joke".data))
        score := { inScope := 31, outOfScope := 20
                   patterns := detectPatterns
                     ("part par par par par par par joke".data) } } ∧
    detectScope ("par par par par par par par par par par joke".data) =
      { inScope := true, confidence := 1/2
        reason := "Message appears to be parts-related"
        category := "general_inquiry"
        score := { inScope := 30, outOfScope := 20
                   patterns := detectPatterns
                     ("par par par par par par par par par par joke".data) } } :=
  ⟨(C5_boundary _).1 (by decide) (by decide) (by decide) (by decide),
   (C5_boundary _).2 (by decide) (by decide) (by decide) (by decide)⟩

/-- Claim C9: `sanitizeMessage` fails exactly on non-string arguments: on a
string it returns the sanitized record without failing, and on any
non-string it throws `Message must be a string`. -/
theorem C9_sanitize_error_contract :
    (∀ s : List Char,
      sanitizeMessageJS (JSValue.str s) = Except.ok (sanitizeMessage s)) ∧
    (∀ v : JSValue, isStringV v = false →
      sanitizeMessageJS v = Except.error "Message must be a string") := by
  constructor
  · intro s; rfl
  · intro v hv
    cases v with
    | str s => simp [isStringV] at hv
    | num n => rfl
    | boolean b => rfl
    | null => rfl
    | undef => rfl

/-- Claim C9, witness: a `null` argument is rejected with the error message,
and an arbitrary string argument is accepted. -/
theorem C9_witness :
    isStringV JSValue.null = false ∧
    sanitizeMessageJS JSValue.null = Except.error "Message must be a string" ∧
    sanitizeMessageJS (JSValue.str ("  hi <b> ".data)) =
      Except.ok (sanitizeMessage ("  hi <b> ".data)) :=
  ⟨rfl, C9_sanitize_error_contract.2 JSValue.null rfl,
   C9_sanitize_error_contract.1 ("  hi <b> ".data)⟩

/-- Claim C6: `detectScope` on the cleaned, lowercased message
`"tell me a joke about the weather"` reports out-of-scope: the out-of-scope
keyword score (50) exceeds the in-scope score (12) by more than 20. -/
theorem C6_out_of_scope_example :
    (detectScope ("tell me a joke about the weather".data)).inScope = false ∧
    (detectScope ("tell me a joke about the weather".data)).category = "out_of_scope" ∧
    (detectScope ("tell me a joke about the weather".data)).score.inScope = 12 ∧
    (detectScope ("tell me a joke about the weather".data)).score.outOfScope = 50 := by
  refine ⟨by decide, by decide, by decide, by decide⟩

/-- Claim C7: `classifyIntent` on `"how do i install PS11752778"` returns
intent `installation_guide` (score 50, strictly above every other intent)
with `context.partNumber = "PS11752778"`. -/
theorem C7_intent_example :
    (classifyIntent ("how do i install PS11752778".data)).intent =
      "installation_guide" ∧
    (classifyIntent ("how do i install PS11752778".data)).context.partNumber =
      some ("PS11752778".data) := by
  refine ⟨by decide, by decide⟩

theorem mem_collapseGo {a : Char} :
    ∀ {flag : Bool} {l : List Char}, a ∈ collapseGo flag l → a ∈ l ∨ a = ' ' := by
  intro flag l
  induction l generalizing flag with
  | nil => intro h; simp [collapseGo] at h
  | cons c t ih =>
    intro h
    by_cases hw : isJsWs c = true
    · simp only [collapseGo, hw, if_true] at h
      rcases flag with _ | _
      · simp at h
        rcases h with h | h
        · right; exact h
        · rcases ih h with h | h
          · left; exact List.mem_cons_of_mem _ h
          · right; exact h
      · simp at h
        rcases ih h with h | h
        · left; exact List.mem_cons_of_mem _ h
        · right; exact h
    · simp only [collapseGo, hw, if_false, Bool.not_eq_true] at h
      simp at h
      rcases h with h | h
      · left; simp [h]
      · rcases ih h with h | h
        · left; exact List.mem_cons_of_mem _ h
        · right; exact h

theorem dropTrailingWs_pre (l : List Char) :
    dropTrailingWs l ++ (l.reverse.takeWhile isJsWs).reverse = l := by
  unfold dropTrailingWs
  rw [← List.reverse_append, List.takeWhile_append_dropWhile, List.reverse_reverse]

theorem mem_dropTrailingWs {a : Char} {l : List Char}
    (h : a ∈ dropTrailingWs l) : a ∈ l := by
  unfold dropTrailingWs at h
  rw [List.mem_reverse] at h
  have := (List.dropWhile_sublist (l := l.reverse) isJsWs).mem h
  rwa [List.mem_reverse] at this

theorem mem_trimWhitespace {a : Char} {l : List Char}
    (h : a ∈ trimWhitespace l) : a ∈ l := by
  unfold trimWhitespace dropLeadingWs at h
  exact (List.dropWhile_sublist isJsWs).mem (mem_dropTrailingWs h)

theorem headNonWs_dropWhile (l : List Char) :
    headNonWs (l.dropWhile isJsWs) = true := by
  induction l with
  | nil => rfl
  | cons c t ih =>
    by_cases hw : isJsWs c = true
    · simpa [List.dropWhile, hw] using ih
    · have hw2 : isJsWs c = false := by simpa using hw
      simp [List.dropWhile, hw2, headNonWs]

theorem dropWhile_eq_self_of_head {l : List Char}
    (h : headNonWs l = true) : l.dropWhile isJsWs = l := by
  cases l with
  | nil => rfl
  | cons c t =>
    simp only [headNonWs, Bool.not_eq_true'] at h
    simp [List.dropWhile, h]

theorem headNonWs_of_pre {l1 t l : List Char} (hp : l1 ++ t = l)
    (h : headNonWs l = true) : headNonWs l1 = true := by
  cases l1 with
  | nil => rfl
  | cons c l2 =>
    subst hp
    simpa [headNonWs] using h

theorem headNonWs_dropTrailingWs {l : List Char}
    (h : headNonWs l = true) : headNonWs (dropTrailingWs l) = true :=
  headNonWs_of_pre (dropTrailingWs_pre l) h

theorem dropTrailingWs_idem (l : List Char) :
    dropTrailingWs (dropTrailingWs l) = dropTrailingWs l := by
  unfold dropTrailingWs
  rw [List.reverse_reverse]
  rw [dropWhile_eq_self_of_head (headNonWs_dropWhile l.reverse)]

theorem trimWhitespace_idem (l : List Char) :
    trimWhitespace (trimWhitespace l) = trimWhitespace l := by
  unfold trimWhitespace dropLeadingWs
  rw [dropWhile_eq_self_of_head
    (headNonWs_dropTrailingWs (headNonWs_dropWhile l)), dropTrailingWs_idem]

theorem noAdjWs_tail {c : Char} {t : List Char}
    (h : noAdjWs (c :: t) = true) : noAdjWs t = true := by
  cases t with
  | nil => rfl
  | cons d t2 => simp only [noAdjWs, Bool.and_eq_true] at h; exact h.2

theorem noAdjWs_dropWhile {l : List Char}
    (h : noAdjWs l = true) : noAdjWs (l.dropWhile isJsWs) = true := by
  induction l with
  | nil => exact h
  | cons c t ih =>
    by_cases hw : isJsWs c = true
    · simp only [List.dropWhile, hw, if_true]
      exact ih (noAdjWs_tail h)
    · simpa [List.dropWhile, hw] using h

theorem noAdjWs_of_append_left :
    ∀ {l1 t : List Char}, noAdjWs (l1 ++ t) = true → noAdjWs l1 = true := by
  intro l1
  induction l1 with
  | nil => intro t _; rfl
  | cons a l2 ih =>
    intro t h
    cases l2 with
    | nil => rfl
    | cons b l3 =>
      simp only [List.cons_append, noAdjWs, Bool.and_eq_true] at h ⊢
      exact ⟨h.1, by simpa using ih (t := t) (by simpa using h.2)⟩

theorem noAdjWs_dropTrailingWs {l : List Char}
    (h : noAdjWs l = true) : noAdjWs (dropTrailingWs l) = true := by
  have hp := dropTrailingWs_pre l
  exact noAdjWs_of_append_left (by rwa [hp])

theorem headNonWs_collapseGo_true :
    ∀ l : List Char, headNonWs (collapseGo true l) = true := by
  intro l
  induction l with
  | nil => rfl
  | cons c t ih =>
    by_cases hw : isJsWs c = true
    · simpa [collapseGo, hw] using ih
    · have hw2 : isJsWs c = false := by simpa using hw
      simp [collapseGo, hw2, headNonWs]

theorem noAdjWs_cons {c : Char} {X : List Char} (hX : noAdjWs X = true)
    (h : isJsWs c = false ∨ headNonWs X = true) : noAdjWs (c :: X) = true := by
  cases X with
  | nil => rfl
  | cons d t =>
    simp only [noAdjWs, Bool.and_eq_true, hX, and_true]
    rcases h with h | h
    · simp [h]
    · simp only [headNonWs, Bool.not_eq_true'] at h
      simp [h]

theorem collapseGo_noAdj :
    ∀ (l : List Char) (flag : Bool), noAdjWs (collapseGo flag l) = true := by
  intro l
  induction l with
  | nil => intro flag; rfl
  | cons c t ih =>
    intro flag
    by_cases hw : isJsWs c = true
    · rcases flag with _ | _
      · simp only [collapseGo, hw, if_true, Bool.false_eq_true, if_false]
        exact noAdjWs_cons (ih true) (Or.inr (headNonWs_collapseGo_true t))
      · simpa [collapseGo, hw] using ih true
    · simp only [collapseGo, hw, if_false]
      simp only [Bool.not_eq_true] at hw
      exact noAdjWs_cons (ih false) (Or.inl hw)

theorem collapseGo_space {a : Char} :
    ∀ {flag : Bool} {l : List Char}, a ∈ collapseGo flag l →
      isJsWs a = true → a = ' ' := by
  intro flag l
  induction l generalizing flag with
  | nil => intro h; simp [collapseGo] at h
  | cons c t ih =>
    intro h ha
    by_cases hw : isJsWs c = true
    · simp only [collapseGo, hw, if_true] at h
      rcases flag with _ | _
      · simp at h
        rcases h with h | h
        · exact h
        · exact ih h ha
      · exact ih h ha
    · simp only [collapseGo, hw, if_false] at h
      simp at h
      rcases h with h | h
      · subst h; simp [hw] at ha
      · exact ih h ha

theorem collapseGo_id :
    ∀ (l : List Char) (flag : Bool),
      (∀ c ∈ l, isJsWs c = true → c = ' ') → noAdjWs l = true →
      (flag = true → headNonWs l = true) → collapseGo flag l = l := by
  intro l
  induction l with
  | nil => intro flag _ _ _; rfl
  | cons c t ih =>
    intro flag hsp hadj hflag
    by_cases hw : isJsWs c = true
    · have hc : c = ' ' := hsp c (by simp) hw
      have hflagf : flag = false := by
        rcases flag with _ | _
        · rfl
        · exfalso
          have := hflag rfl
          simp [headNonWs, hw] at this
      subst hflagf
      simp only [collapseGo, hw, if_true, Bool.false_eq_true, if_false]
      have hht : headNonWs t = true := by
        cases t with
        | nil => rfl
        | cons d t2 =>
          simp only [noAdjWs, Bool.and_eq_true, hw, Bool.true_and] at hadj
          simp only [headNonWs]
          simpa using hadj.1
      rw [ih true (fun x hx => hsp x (List.mem_cons_of_mem _ hx))
        (noAdjWs_tail hadj) (fun _ => hht), hc]
    · have hw2 : isJsWs c = false := by simpa using hw
      simp only [collapseGo, hw2, Bool.false_eq_true, if_false]
      rw [ih false (fun x hx => hsp x (List.mem_cons_of_mem _ hx))
        (noAdjWs_tail hadj) (by intro h; exact absurd h (by simp))]

/-- A list that is control-free, whose whitespace is single spaces with no
two adjacent, and that is already trimmed, is a fixed point of the cleaning
pipeline. -/
theorem sanitize_cleaned_fixed {c : List Char}
    (hctl : ∀ a ∈ c, (!isCtl a) = true)
    (hsp : ∀ a ∈ c, isJsWs a = true → a = ' ')
    (hadj : noAdjWs c = true)
    (htrim : trimWhitespace c = c) :
    (sanitizeMessage c).cleaned = c := by
  show trimWhitespace (collapseGo false
    (trimWhitespace (removeControlCharacters c))) = c
  unfold removeControlCharacters
  rw [List.filter_eq_self.mpr hctl, htrim,
    collapseGo_id c false hsp hadj (by simp), htrim]

/-- Claim C8: cleaning reaches a fixed point after one pass — for every
string `x`, `sanitizeMessage (sanitizeMessage x).cleaned |>.cleaned` equals
`(sanitizeMessage x).cleaned`. -/
theorem C8_sanitize_idempotent (x : List Char) :
    (sanitizeMessage (sanitizeMessage x).cleaned).cleaned
      = (sanitizeMessage x).cleaned := by
  have hform : (sanitizeMessage x).cleaned
      = trimWhitespace (collapseGo false
          (trimWhitespace (removeControlCharacters x))) := rfl
  apply sanitize_cleaned_fixed
  · intro a ha
    rw [hform] at ha
    rcases mem_collapseGo (mem_trimWhitespace ha) with h | h
    · have h2 := mem_trimWhitespace h
      simp only [removeControlCharacters, List.mem_filter] at h2
      exact h2.2
    · subst h; decide
  · intro a ha haw
    rw [hform] at ha
    exact collapseGo_space (mem_trimWhitespace ha) haw
  · rw [hform]
    unfold trimWhitespace dropLeadingWs
    exact noAdjWs_dropTrailingWs (noAdjWs_dropWhile (collapseGo_noAdj _ false))
  · rw [hform, trimWhitespace_idem]

/-- An ASCII digit is not a letter of either case. -/
theorem digit_not_letter {c : Char} (h : isDigitC c = true) :
    isLetterCI c = false := by
  simp [isDigitC, isLetterCI, isUpperAZ, isLowerAZ] at *
  omega

/-- Consuming exactly the leading run of `p`-characters always succeeds. -/
theorem consumeClass_countLeading (p : Char → Bool) :
    ∀ l : List Char,
      consumeClass p (countLeading p l) l = some (l.drop (countLeading p l)) := by
  intro l
  induction l with
  | nil => rfl
  | cons c t ih =>
    by_cases h : p c = true
    · simp [countLeading, consumeClass, h, ih]
    · simp [countLeading, consumeClass, h]

/-- The case-insensitive model-number pattern matches at a position holding
one to three letters immediately followed by five digits. -/
theorem matchModelAtCI_some (ls ds b : List Char)
    (hlen : ls.length = 1 ∨ ls.length = 2 ∨ ls.length = 3)
    (hls : ∀ c ∈ ls, isLetterCI c = true)
    (hds : ds.length = 5)
    (hdig : ∀ c ∈ ds, isDigitC c = true) :
    (matchModelAt isLetterCI (ls ++ ds ++ b)).isSome = true := by
  rcases ds with _ | ⟨d1, _ | ⟨d2, _ | ⟨d3, _ | ⟨d4, _ | ⟨d5, rest⟩⟩⟩⟩⟩ <;>
    simp at hds
  obtain rfl : rest = [] := by simpa using hds
  have hd1 : isDigitC d1 = true := hdig d1 (by simp)
  have hd2 : isDigitC d2 = true := hdig d2 (by simp)
  have hd3 : isDigitC d3 = true := hdig d3 (by simp)
  have hd4 : isDigitC d4 = true := hdig d4 (by simp)
  have hd5 : isDigitC d5 = true := hdig d5 (by simp)
  have hl1 := digit_not_letter hd1
  have hl5 := digit_not_letter hd5
  have hcnt : countLeading isDigitC (d5 :: b)
      = countLeading isDigitC b + 1 := by simp [countLeading, hd5]
  rcases ls with _ | ⟨x, _ | ⟨y, _ | ⟨z, _ | ⟨w, r⟩⟩⟩⟩ <;> simp at hlen
  · -- ls = [x]
    have hx : isLetterCI x = true := hls x (by simp)
    simp only [List.cons_append, List.nil_append]
    simp only [matchModelAt, tryEach, consumeClass, hx, hl1, hd1, hd2, hd3, hd4,
      hd5, hl5, if_true, if_false, Option.bind, hcnt, countdown,
      consumeClass_countLeading]
    rcases hopt : consumeClass isLetterCI 1 (b.drop (countLeading isDigitC b)) with _ | r5 <;>
      simp [hopt]
  · -- ls = [x, y]
    have hx : isLetterCI x = true := hls x (by simp)
    have hy : isLetterCI y = true := hls y (by simp)
    simp only [List.cons_append, List.nil_append]
    simp only [matchModelAt, tryEach, consumeClass, hx, hy, hl1, hd1, hd2, hd3,
      hd4, hd5, hl5, if_true, if_false, Option.bind, hcnt, countdown,
      consumeClass_countLeading]
    rcases hopt : consumeClass isLetterCI 1 (b.drop (countLeading isDigitC b)) with _ | r5 <;>
      simp [hopt]
  · -- ls = [x, y, z]
    have hx : isLetterCI x = true := hls x (by simp)
    have hy : isLetterCI y = true := hls y (by simp)
    have hz : isLetterCI z = true := hls z (by simp)
    simp only [List.cons_append, List.nil_append]
    simp only [matchModelAt, tryEach, consumeClass, hx, hy, hz, hl1, hd1, hd2,
      hd3, hd4, hd5, hl5, if_true, if_false, Option.bind, hcnt, countdown,
      consumeClass_countLeading]
    rcases hopt : consumeClass isLetterCI 1 (b.drop (countLeading isDigitC b)) with _ | r5 <;>
      simp [hopt]



/-- `regex.test` succeeds on any string with a matching position. -/
theorem regexTest_append (mAt : List Char → Option Nat) (l2 : List Char)
    (h : (mAt l2).isSome = true) :
    ∀ l1 : List Char, regexTest mAt (l1 ++ l2) = true := by
  intro l1
  induction l1 with
  | nil =>
    cases l2 with
    | nil => simpa [regexTest] using h
    | cons c t => simp [regexTest, h]
  | cons a t ih => simp [regexTest, ih]

/-- A global scan collects nothing when no position matches. -/
theorem scanAllFuel_nil_of_test_false (mAt : List Char → Option Nat) :
    ∀ (fuel : Nat) (l : List Char), regexTest mAt l = false →
      scanAllFuel mAt fuel l = [] := by
  intro fuel
  induction fuel with
  | zero => intro l _; rfl
  | succ n ih =>
    intro l h
    cases l with
    | nil => rfl
    | cons c t =>
      simp only [regexTest, Bool.or_eq_false_iff] at h
      have hnone : mAt (c :: t) = none := by
        rcases hv : mAt (c :: t) with _ | v
        · rfl
        · rw [hv] at h; simp at h
      simp [scanAllFuel, hnone, ih t h.2]

/-- The case-sensitive model matcher fails at a head that is not an
uppercase letter. -/
theorem matchModelCS_none_head {c : Char} (t : List Char)
    (h : isUpperAZ c = false) : matchModelAt isUpperAZ (c :: t) = none := by
  simp [matchModelAt, tryEach, consumeClass, h]

/-- The case-sensitive model pattern never matches a string without
uppercase letters. -/
theorem regexTest_modelCS_false {m : List Char}
    (h : ∀ c ∈ m, isUpperAZ c = false) :
    regexTest (matchModelAt isUpperAZ) m = false := by
  induction m with
  | nil => rfl
  | cons c t ih =>
    simp only [regexTest, Bool.or_eq_false_iff]
    constructor
    · simp [matchModelCS_none_head t (h c (by simp))]
    · exact ih (fun x hx => h x (List.mem_cons_of_mem _ hx))

/-- Claim C10, corrected: for every message without uppercase characters
that contains one to three letters immediately followed by at least five
digits, and on which the (case-insensitive) part-number pattern `PS\d{6,}`
does not match, `detectScope` takes the pattern-override branch (the
case-insensitive `MODEL_NUMBER` test matches) while `extractEntities`
returns empty part numbers and empty model numbers (its model regex is
case-sensitive).  The part-pattern exclusion is forced by the
counterexample `"ps123456"` below; the at-least-five-digits hypothesis is
represented by five digits `ds` with the remainder absorbed into `b`. -/
theorem C10_case_mismatch (m a ls ds b : List Char)
    (hdecomp : m = a ++ ls ++ ds ++ b)
    (hlen : ls.length = 1 ∨ ls.length = 2 ∨ ls.length = 3)
    (hls : ∀ c ∈ ls, isLetterCI c = true)
    (hds : ds.length = 5) (hdig : ∀ c ∈ ds, isDigitC c = true)
    (hnoUp : ∀ c ∈ m, isUpperAZ c = false)
    (hnopart : regexTest partMatchAtCI m = false) :
    detectScope m =
      { inScope := true, confidence := 1
        reason := "Explicit part or model number pattern detected"
        category := "parts_inquiry"
        score := { inScope := 100, outOfScope := 0, patterns := 100 } } ∧
    extractEntities m = { partNumbers := [], modelNumbers := [] } := by
  have hmodel : regexTest (matchModelAt isLetterCI) m = true := by
    subst hdecomp
    have := matchModelAtCI_some ls ds b hlen hls hds hdig
    simpa [List.append_assoc] using regexTest_append _ _ this a
  constructor
  · unfold detectScope
    simp [hmodel, hnopart]
  · unfold extractEntities scanAll
    rw [scanAllFuel_nil_of_test_false _ _ _ hnopart,
        scanAllFuel_nil_of_test_false _ _ _ (regexTest_modelCS_false hnoUp)]
    rfl

/-- Claim C10, witness: the all-lowercase message `"abc12345"`. -/
theorem C10_witness :
    detectScope ("abc12345".data) =
      { inScope := true, confidence := 1
        reason := "Explicit part or model number pattern detected"
        category := "parts_inquiry"
        score := { inScope := 100, outOfScope := 0, patterns := 100 } } ∧
    extractEntities ("abc12345".data) =
      { partNumbers := [], modelNumbers := [] } :=
  C10_case_mismatch ("abc12345".data) [] ("abc".data) ("12345".data) []
    (by decide) (by decide) (by decide) (by decide) (by decide)
    (by decide) (by decide)

/-- Claim C10, counterexample to the claim as stated: `"ps123456"` is an
all-lowercase message containing two letters followed by six (at least
five) digits, yet `extractEntities` returns a NON-empty part-number set,
because the part regex `/PS\d{6,}/gi` is case-insensitive. -/
theorem C10_counterexample :
    (extractEntities ("ps123456".data)).partNumbers = ["PS123456".data] ∧
    (extractEntities ("ps123456".data)).partNumbers ≠ [] := by
  refine ⟨by decide, by decide⟩

end Triage
